import Mathlib

/-!
# Verification of the debugger-protocol message relay

Shallow embedding of `attachToServer` / `parseMessage` (the WebSocket message
relay of the React Native CLI debugger proxy) and proofs of the specified
routing, classification, error-handling and registry properties.

JavaScript values carried on the wire are modelled by `JValue`; an absent
(`undefined`) field is `Option.none`.  Outbound frames are the association
lists produced by `JSON.stringify` (fields with `undefined` values dropped,
source key order kept).  The external WebSocket `send` is modelled by a
failure oracle `sendFail : String → Option String` giving, per destination
handle, the stringified exception it throws (or `none` on success).
-/

/-- A parsed JSON value (result of `JSON.parse`). `undefined` is not a JSON
value; absence of an object field is modelled by `Option` at use sites. -/
inductive JValue where
  | null : JValue
  | bool (b : Bool) : JValue
  | num (n : Int) : JValue
  | str (s : String) : JValue
  | arr (elems : List JValue) : JValue
  | obj (fields : List (String × JValue)) : JValue
deriving Repr

/-- JS property access `v.key` for a parsed JSON value: a lookup on objects
(first occurrence), `undefined` (= `none`) on arrays, numbers, booleans and
strings for the property names used by the relay. Access on `null` throws in
JS; callers that can receive `null` handle that case themselves. -/
def jGet (v : JValue) (key : String) : Option JValue :=
  match v with
  | .obj fields => (fields.find? (fun p => p.1 == key)).map (·.2)
  | _ => none

/-- `typeof x === 'string'` for a possibly-absent value. -/
def isStr : Option JValue → Bool
  | some (.str _) => true
  | _ => false

/-- `JSON.stringify` of an object literal: fields whose value is `undefined`
are dropped, the rest keep their source order. -/
def mkObj (fields : List (String × Option JValue)) : JValue :=
  .obj (fields.filterMap (fun p => p.2.map (fun v => (p.1, v))))

def PROTOCOL_VERSION : Int := 2

/-- JS strict equality `x === n` of a possibly-absent value against a number. -/
def strictEqNum (v : Option JValue) (n : Int) : Bool :=
  match v with
  | some (.num m) => m == n
  | _ => false

/-- JS strict equality `x === s` of a possibly-absent value against a string. -/
def strictEqStr (v : Option JValue) (s : String) : Bool :=
  match v with
  | some (.str t) => t == s
  | _ => false

/-- `parseMessage(data, binary)`.  The external `JSON.parse` is modelled at
its interface boundary: `data = none` stands for a payload that is not valid
JSON (the `catch` branch), `data = some v` for a payload parsing to `v`.
The source returns the parsed message unchanged when its `version` field
strictly equals `PROTOCOL_VERSION`, and `undefined` otherwise, logging a
diagnostic in each rejection branch (logging has no further effect and is
not modelled here). -/
def parseMessage (data : Option JValue) (binary : Bool) : Option JValue :=
  if binary then
    none
  else
    match data with
    | none => none
    | some message =>
      if strictEqNum (jGet message "version") PROTOCOL_VERSION then
        some message
      else
        none

/-- `isBroadcast`: `method` is a string, `id` and `target` are `undefined`. -/
def isBroadcast (message : JValue) : Bool :=
  isStr (jGet message "method") && (jGet message "id").isNone
    && (jGet message "target").isNone

/-- `isRequest`: `method` and `target` are both strings. -/
def isRequest (message : JValue) : Bool :=
  isStr (jGet message "method") && isStr (jGet message "target")

/-- A routing failure, as caught by the per-message `try`/`catch`.
`thrown msg` is `new Error(msg)`; `external s` is an exception raised by the
JS runtime or the WebSocket library whose `toString()` is `s`. -/
inductive RelayError where
  | thrown (msg : String) : RelayError
  | external (s : String) : RelayError
deriving Repr, DecidableEq

/-- `e.toString()` for a caught routing failure. -/
def RelayError.toDisplay : RelayError → String
  | .thrown msg => "Error: " ++ msg
  | .external s => s

/-- `isResponse`: `typeof id === 'object'` (true for `null`, arrays and
objects), then `id.requestId` present, `id.clientId` a string, and at least
one of `result`/`error` present.  When `id` is `null` the access
`message.id.requestId` throws a `TypeError`, propagated to the caller's
`catch`. -/
def isResponse (message : JValue) : Except RelayError Bool :=
  match jGet message "id" with
  | some .null =>
    .error (.external "TypeError: Cannot read properties of null (reading 'requestId')")
  | some (.obj idFields) =>
    .ok (((idFields.find? (fun p => p.1 == "requestId")).map (·.2)).isSome
      && isStr ((idFields.find? (fun p => p.1 == "clientId")).map (·.2))
      && ((jGet message "result").isSome || (jGet message "error").isSome))
  | some (.arr _) => .ok false
  | _ => .ok false

/-- JS template-literal rendering `String(x)` of a possibly-absent value, as
used when interpolating a value into an error message.  On every routing path
the interpolated value is a string (guarded by `isRequest` / `isResponse`);
the array case (joined element renderings) is therefore modelled only for the
empty array. -/
def jsDisplay : Option JValue → String
  | none => "undefined"
  | some .null => "null"
  | some (.bool b) => if b then "true" else "false"
  | some (.num n) => toString n
  | some (.str s) => s
  | some (.arr _) => ""
  | some (.obj _) => "[object Object]"

/-- JS truthiness test, as in `if (!message.id) return;`. -/
def jsFalsy : Option JValue → Bool
  | none => true
  | some .null => true
  | some (.bool false) => true
  | some (.num 0) => true
  | some (.str "") => true
  | _ => false

/-- One registry entry: the live WebSocket handle and the upgrade request's
URL (`clients.set(clientId, {ws: clientWs, url: req.url})`).  A connection's
handle is identified by the identity assigned to that connection, so `ws`
is that identity string. -/
structure ClientRec where
  ws : String
  url : String
deriving Repr, DecidableEq

/-- `Map.prototype.set`: replaces the value in place if the key is present,
otherwise appends (JS `Map` iterates in insertion order). -/
def mapSet {α : Type} (m : List (String × α)) (k : String) (v : α) :
    List (String × α) :=
  if m.any (fun p => p.1 == k) then
    m.map (fun p => if p.1 == k then (k, v) else p)
  else
    m ++ [(k, v)]

/-- `Map.prototype.delete`. -/
def mapDelete {α : Type} (m : List (String × α)) (k : String) :
    List (String × α) :=
  m.filter (fun p => p.1 != k)

/-- `Map.prototype.get`. -/
def mapGet {α : Type} (m : List (String × α)) (k : String) : Option α :=
  (m.find? (fun p => p.1 == k)).map (·.2)

/-- One diagnostic emitted through the logger. -/
inductive LogEntry where
  | warnNoApps (method : Option JValue) : LogEntry
  | broadcastSendFail (otherId : String) (err : String) : LogEntry
  | handlingFailed (clientId : String) (err : String) : LogEntry
  | errorReplyFailed (clientId : String) (origErr : String) (sendErr : String) : LogEntry
  | notMatchingProtocol : LogEntry
deriving Repr

/-- The observable effects of handling one event: the frames pushed to
WebSocket handles (in order, `(handle, payload)`), and the diagnostics
logged. -/
structure Effects where
  sends : List (String × JValue)
  logs : List LogEntry
deriving Repr

/-- The `for (const [otherId, other] of clients)` loop of
`handleSendBroadcast`, in iteration (= insertion) order: skip the
broadcaster, send `forwarded` to everyone else, and catch and log a per-peer
send failure without aborting the loop. -/
def broadcastLoop (sendFail : String → Option String)
    (broadcasterId : Option String) (forwarded : JValue) :
    List (String × ClientRec) → Effects
  | [] => { sends := [], logs := [] }
  | other :: rest =>
    let tailEff := broadcastLoop sendFail broadcasterId forwarded rest
    if broadcasterId = some other.1 then tailEff
    else
      match sendFail other.2.ws with
      | some err =>
        { sends := tailEff.sends,
          logs := .broadcastSendFail other.1 err :: tailEff.logs }
      | none =>
        { sends := (other.2.ws, forwarded) :: tailEff.sends,
          logs := tailEff.logs }

/-- `handleSendBroadcast(broadcasterId, message)`: re-wrap as
`{version, method, params}`, warn if no clients are connected, then send to
every registered client other than the broadcaster, catching and logging a
per-peer send failure. -/
def handleSendBroadcast (clients : List (String × ClientRec))
    (sendFail : String → Option String) (broadcasterId : Option String)
    (message : JValue) : Effects :=
  let forwarded := mkObj [("version", some (.num PROTOCOL_VERSION)),
    ("method", jGet message "method"), ("params", jGet message "params")]
  let loopEff := broadcastLoop sendFail broadcasterId forwarded clients
  { sends := loopEff.sends,
    logs := (if clients.length = 0 then [.warnNoApps (jGet message "method")] else [])
      ++ loopEff.logs }

/-- `handleCaughtError(message, error)`: if the failing message carried no
`id` the failure is only logged; otherwise an error reply
`{version, error, id: message.id}` is sent to the originating connection
(`clientWs`), and a failure of that send is itself logged. -/
def handleCaughtError (clientId : String) (sendFail : String → Option String)
    (message : JValue) (error : String) : Effects :=
  if (jGet message "id").isNone then
    { sends := [], logs := [.handlingFailed clientId error] }
  else
    match sendFail clientId with
    | some sendErr => { sends := [], logs := [.errorReplyFailed clientId error sendErr] }
    | none =>
      { sends := [(clientId, mkObj [("version", some (.num PROTOCOL_VERSION)),
          ("error", some (.str error)), ("id", jGet message "id")])],
        logs := [] }

/-- `getClientWs(clientId)`: registry lookup, throwing when the identity has
no current entry. -/
def getClientWs (clients : List (String × ClientRec)) (clientId : String) :
    Except RelayError String :=
  match mapGet clients clientId with
  | some client => .ok client.ws
  | none =>
    .error (.thrown ("could not find id \"" ++ clientId ++ "\" while forwarding request"))

/-- Models the external `querystring` parse used by `url.parse(u, true)`:
split the query string on `&`, and each piece at its first `=` (a piece with
no `=` maps to the empty string). -/
def parseQueryString (qs : String) : List (String × JValue) :=
  if qs = "" then []
  else
    (qs.splitOn "&").map (fun piece =>
      match piece.splitOn "=" with
      | [] => (piece, .str "")
      | [k] => (k, .str "")
      | k :: rest => (k, .str (String.intercalate "=" rest)))

/-- Models the external `url.parse(u, true).query`: the parsed query
parameters of everything after the first `?` of `u` (empty when `u` has no
query part). -/
def urlQuery (u : String) : JValue :=
  match u.splitOn "?" with
  | _ :: q :: rest => .obj (parseQueryString (String.intercalate "?" (q :: rest)))
  | _ => .obj []

/-- `handleServerRequest(message)`: dispatch on `message.method` —
`getid` answers with the caller's own identity, `getpeers` with a mapping
from every other registered identity (with a truthy stored URL) to that
URL's parsed query parameters; any other method throws.  The reply
`{version, result, id: message.id}` goes to the calling connection. -/
def handleServerRequest (clientId : String)
    (clients : List (String × ClientRec)) (sendFail : String → Option String)
    (message : JValue) : Except RelayError Effects :=
  let result? : Except RelayError JValue :=
    if strictEqStr (jGet message "method") "getid" then
      .ok (.str clientId)
    else if strictEqStr (jGet message "method") "getpeers" then
      .ok (.obj ((clients.filter (fun p => clientId != p.1 && p.2.url != "")).map
        (fun p => (p.1, urlQuery p.2.url))))
    else
      .error (.thrown ("unknown method: " ++ jsDisplay (jGet message "method")))
  match result? with
  | .error e => .error e
  | .ok result =>
    match sendFail clientId with
    | some s => .error (.external s)
    | none =>
      .ok { sends := [(clientId, mkObj [("version", some (.num PROTOCOL_VERSION)),
              ("result", some result), ("id", jGet message "id")])],
            logs := [] }

/-- `forwardRequest(message)`: resolve `message.target` in the registry
(throwing when absent) and send it
`{version, method, params, id: message.id === undefined ? undefined
: {requestId: message.id, clientId}}` — the composite identifier embedding
the requester's identity, built only when the request carried an `id`. -/
def forwardRequest (clientId : String)
    (clients : List (String × ClientRec)) (sendFail : String → Option String)
    (message : JValue) : Except RelayError Effects :=
  let lookup : Except RelayError String :=
    match jGet message "target" with
    | some (.str target) => getClientWs clients target
    | other =>
      .error (.thrown ("could not find id \"" ++ jsDisplay other
        ++ "\" while forwarding request"))
  match lookup with
  | .error e => .error e
  | .ok ws =>
    let payload := mkObj [("version", some (.num PROTOCOL_VERSION)),
      ("method", jGet message "method"), ("params", jGet message "params"),
      ("id", match jGet message "id" with
             | none => none
             | some v => some (.obj [("requestId", v), ("clientId", .str clientId)]))]
    match sendFail ws with
    | some s => .error (.external s)
    | none => .ok { sends := [(ws, payload)], logs := [] }

/-- `forwardResponse(message)`: return silently when `message.id` is falsy;
otherwise resolve `message.id.clientId` in the registry (throwing when
absent) and send the original requester
`{version, result, error, id: message.id.requestId}`, restoring its
original identifier. -/
def forwardResponse (clients : List (String × ClientRec))
    (sendFail : String → Option String) (message : JValue) :
    Except RelayError Effects :=
  if jsFalsy (jGet message "id") then
    .ok { sends := [], logs := [] }
  else
    let idVal := (jGet message "id").getD .null
    let lookup : Except RelayError String :=
      match jGet idVal "clientId" with
      | some (.str c) => getClientWs clients c
      | other =>
        .error (.thrown ("could not find id \"" ++ jsDisplay other
          ++ "\" while forwarding request"))
    match lookup with
    | .error e => .error e
    | .ok ws =>
      let payload := mkObj [("version", some (.num PROTOCOL_VERSION)),
        ("result", jGet message "result"), ("error", jGet message "error"),
        ("id", jGet idVal "requestId")]
      match sendFail ws with
      | some s => .error (.external s)
      | none => .ok { sends := [(ws, payload)], logs := [] }

/-- The `try` block of `clientWs.onmessage`: classify with `isBroadcast`,
then `isRequest` (splitting on `target === 'server'`), then `isResponse`,
in that order; a message matching none throws `Invalid message, did not
match the protocol`. -/
def routeCore (clientId : String) (clients : List (String × ClientRec))
    (sendFail : String → Option String) (message : JValue) :
    Except RelayError Effects :=
  if isBroadcast message then
    .ok (handleSendBroadcast clients sendFail (some clientId) message)
  else if isRequest message then
    if strictEqStr (jGet message "target") "server" then
      handleServerRequest clientId clients sendFail message
    else
      forwardRequest clientId clients sendFail message
  else
    match isResponse message with
    | .error e => .error e
    | .ok true => forwardResponse clients sendFail message
    | .ok false => .error (.thrown "Invalid message, did not match the protocol")

/-- The per-message handler after a successful parse: the `try`/`catch`
around routing, every failure flowing into `handleCaughtError` with the
failure's string rendering. -/
def routeMessage (clientId : String) (clients : List (String × ClientRec))
    (sendFail : String → Option String) (message : JValue) : Effects :=
  match routeCore clientId clients sendFail message with
  | .ok eff => eff
  | .error e => handleCaughtError clientId sendFail message e.toDisplay

/-- `clientWs.onmessage`: parse the frame, log and stop when the parse
rejects it, otherwise route it. -/
def onMessage (clientId : String) (clients : List (String × ClientRec))
    (sendFail : String → Option String) (data : Option JValue) (binary : Bool) :
    Effects :=
  match parseMessage data binary with
  | none => { sends := [], logs := [.notMatchingProtocol] }
  | some message => routeMessage clientId clients sendFail message

/-- The `broadcast` operation of the returned control surface:
`handleSendBroadcast(null, {method, params})`. -/
def serverBroadcast (clients : List (String × ClientRec))
    (sendFail : String → Option String) (method : String)
    (params : Option JValue) : Effects :=
  handleSendBroadcast clients sendFail none
    (mkObj [("method", some (.str method)), ("params", params)])

/-- Little-endian decimal digits of a natural number (`[]` for 0). -/
def decDigits : Nat → List Nat
  | 0 => []
  | n + 1 => ((n + 1) % 10) :: decDigits ((n + 1) / 10)
decreasing_by exact Nat.div_lt_self (Nat.succ_pos n) (by omega)

/-- Decimal rendering of a natural number, modelling the JS number-to-string
conversion performed by the template literal in the identity
`` `client#${nextClientId++}` ``. -/
def natToDecimal (n : Nat) : String :=
  if n = 0 then "0" else ⟨(decDigits n).reverse.map Nat.digitChar⟩

/-- The identity assigned to the `n`-th accepted connection:
`` `client#${n}` ``. -/
def mkClientId (n : Nat) : String :=
  "client#" ++ natToDecimal n

/-- The mutable state owned by one `attachToServer` call: the connection
registry and the identity counter.  `assigned` is the observation history of
identities handed out at acceptance, in order (not part of the source state;
it records what the source logs into each connection's closure). -/
structure RelayState where
  clients : List (String × ClientRec)
  nextClientId : Nat
  assigned : List String
deriving Repr

def initialState : RelayState := { clients := [], nextClientId := 0, assigned := [] }

/-- One external event delivered to the relay.  `connect ""` models an
upgrade request whose `req.url` is falsy (absent or empty), which the
handler ignores before consuming an identity.  `close` models either the
`onclose` or the `onerror` event of a connection: both are wired to the same
`onCloseHandler`. -/
inductive Event where
  | connect (url : String) : Event
  | close (clientId : String) : Event
  | message (clientId : String) (data : Option JValue) (binary : Bool) : Event

/-- The registry/counter transition of one event.  A `message` event only
produces effects (`onMessage`), never touches the registry or the counter. -/
def step (s : RelayState) : Event → RelayState
  | .connect url =>
    if url = "" then s
    else
      let clientId := mkClientId s.nextClientId
      { clients := mapSet s.clients clientId { ws := clientId, url := url },
        nextClientId := s.nextClientId + 1,
        assigned := s.assigned ++ [clientId] }
  | .close clientId => { s with clients := mapDelete s.clients clientId }
  | .message _ _ _ => s

/-- The state after a sequence of events, from a fresh `attachToServer`. -/
def run (events : List Event) : RelayState := events.foldl step initialState

/-! ### Identity rendering is injective -/

/-- Value of a little-endian decimal digit list. -/
def undigits : List Nat → Nat
  | [] => 0
  | d :: ds => d + 10 * undigits ds

theorem undigits_decDigits (n : Nat) : undigits (decDigits n) = n := by
  induction n using Nat.strong_induction_on with
  | _ n ih =>
    match n with
    | 0 => simp [decDigits, undigits]
    | m + 1 =>
      rw [decDigits, undigits,
        ih ((m + 1) / 10) (Nat.div_lt_self (Nat.succ_pos m) (by omega))]
      omega

theorem decDigits_injective : Function.Injective decDigits := by
  intro a b h
  rw [← undigits_decDigits a, h, undigits_decDigits]

theorem decDigits_lt_ten (n : Nat) : ∀ d ∈ decDigits n, d < 10 := by
  induction n using Nat.strong_induction_on with
  | _ n ih =>
    match n with
    | 0 => intro d hd; simp [decDigits] at hd
    | m + 1 =>
      intro d hd
      rw [decDigits] at hd
      rcases List.mem_cons.mp hd with h | h
      · omega
      · exact ih ((m + 1) / 10) (Nat.div_lt_self (Nat.succ_pos m) (by omega)) d h

theorem digitChar_inj_lt (a b : Nat) (ha : a < 10) (hb : b < 10)
    (h : Nat.digitChar a = Nat.digitChar b) : a = b := by
  have key : ∀ x y : Fin 10, Nat.digitChar x.val = Nat.digitChar y.val → x = y := by
    decide
  have := key ⟨a, ha⟩ ⟨b, hb⟩ h
  exact Fin.val_eq_of_eq this

theorem map_digitChar_inj : ∀ (xs ys : List Nat), (∀ x ∈ xs, x < 10) →
    (∀ y ∈ ys, y < 10) → xs.map Nat.digitChar = ys.map Nat.digitChar → xs = ys := by
  intro xs
  induction xs with
  | nil => intro ys _ _ h; cases ys <;> simp_all
  | cons x xs ih =>
    intro ys hxs hys h
    cases ys with
    | nil => simp at h
    | cons y ys =>
      simp only [List.map_cons, List.cons.injEq] at h
      have hx : x = y := digitChar_inj_lt x y (hxs x (by simp)) (hys y (by simp)) h.1
      have ht : xs = ys := ih ys (fun a ha => hxs a (by simp [ha]))
        (fun a ha => hys a (by simp [ha])) h.2
      rw [hx, ht]

theorem natToDecimal_injective : Function.Injective natToDecimal := by
  intro a b h
  have digits_eq_of_str : ∀ m k : Nat,
      (⟨(decDigits m).reverse.map Nat.digitChar⟩ : String)
        = ⟨(decDigits k).reverse.map Nat.digitChar⟩ → m = k := by
    intro m k hmk
    injection hmk with hdata
    have hrev := map_digitChar_inj _ _
      (fun x hx => decDigits_lt_ten m x (List.mem_reverse.mp hx))
      (fun y hy => decDigits_lt_ten k y (List.mem_reverse.mp hy)) hdata
    exact decDigits_injective (List.reverse_injective hrev)
  have zero_case : ∀ k : Nat, k ≠ 0 →
      ("0" : String) ≠ ⟨(decDigits k).reverse.map Nat.digitChar⟩ := by
    intro k hk hcontra
    have hdata : ['0'] = (decDigits k).reverse.map Nat.digitChar := by
      have h0 : ("0" : String).data = ['0'] := by decide
      rw [← h0, hcontra]
    match hlist : (decDigits k).reverse with
    | [] => rw [hlist] at hdata; simp at hdata
    | [d] =>
      rw [hlist] at hdata
      simp only [List.map_cons, List.map_nil, List.cons.injEq] at hdata
      have hd10 : d < 10 := decDigits_lt_ten k d (List.mem_reverse.mp (by simp [hlist]))
      have hd0 : d = 0 := by
        refine digitChar_inj_lt d 0 hd10 (by omega) ?_
        rw [← hdata.1]
        rfl
      have hdk : decDigits k = [0] := by
        have hr := congrArg List.reverse hlist
        simp only [List.reverse_reverse] at hr
        rw [hr, hd0]
        rfl
      have hu := undigits_decDigits k
      rw [hdk] at hu
      exact hk (by rw [← hu]; rfl)
    | d :: e :: rest =>
      rw [hlist] at hdata
      simp at hdata
  unfold natToDecimal at h
  by_cases ha : a = 0 <;> by_cases hb : b = 0
  · rw [ha, hb]
  · rw [if_pos ha, if_neg hb] at h
    exact absurd h (zero_case b hb)
  · rw [if_neg ha, if_pos hb] at h
    exact absurd h.symm (zero_case a ha)
  · rw [if_neg ha, if_neg hb] at h
    exact digits_eq_of_str a b h

theorem mkClientId_injective : Function.Injective mkClientId := by
  intro a b h
  unfold mkClientId at h
  have hdata := congrArg String.data h
  simp only [String.data_append] at hdata
  have := List.append_cancel_left hdata
  exact natToDecimal_injective (String.ext this)

/-- The classification outcome of the `onmessage` dispatch chain. -/
inductive MsgClass where
  | broadcast : MsgClass
  | request : MsgClass
  | response : MsgClass
  | invalid : MsgClass
deriving Repr, DecidableEq

/-- The dispatch chain of `clientWs.onmessage`, as a pure observation:
`isBroadcast`, then `isRequest`, then `isResponse`, in that order, the first
match winning; a message matching none is invalid. -/
def classify (message : JValue) : Except RelayError MsgClass :=
  if isBroadcast message then .ok .broadcast
  else if isRequest message then .ok .request
  else
    match isResponse message with
    | .error e => .error e
    | .ok true => .ok .response
    | .ok false => .ok .invalid

/-! ### Supporting lemmas -/

theorem broadcastLoop_sends (sendFail : String → Option String)
    (broadcasterId : Option String) (forwarded : JValue) :
    ∀ clients : List (String × ClientRec),
      (broadcastLoop sendFail broadcasterId forwarded clients).sends
        = (clients.filter (fun p =>
            !(broadcasterId == some p.1) && (sendFail p.2.ws).isNone)).map
              (fun p => (p.2.ws, forwarded)) := by
  intro clients
  induction clients with
  | nil => rfl
  | cons c cs ih =>
    by_cases hb : broadcasterId = some c.1
    · subst hb
      simp [broadcastLoop, ih, List.filter_cons]
    · have hbne : (broadcasterId == some c.1) = false := by
        simpa using hb
      cases hf : sendFail c.2.ws with
      | some err => simp [broadcastLoop, hb, hbne, hf, ih, List.filter_cons]
      | none => simp [broadcastLoop, hb, hbne, hf, ih, List.filter_cons]

theorem broadcastLoop_mem_logs (sendFail : String → Option String)
    (broadcasterId : Option String) (forwarded : JValue)
    (clients : List (String × ClientRec)) (p : String × ClientRec) (err : String)
    (hp : p ∈ clients) (hb : broadcasterId ≠ some p.1)
    (hf : sendFail p.2.ws = some err) :
    LogEntry.broadcastSendFail p.1 err
      ∈ (broadcastLoop sendFail broadcasterId forwarded clients).logs := by
  induction clients with
  | nil => cases hp
  | cons c cs ih =>
    simp only [broadcastLoop]
    rcases List.mem_cons.mp hp with hc | hc
    · subst hc
      rw [if_neg hb, hf]
      exact List.mem_cons_self _ _
    · by_cases hbc : broadcasterId = some c.1
      · rw [if_pos hbc]; exact ih hc
      · rw [if_neg hbc]
        match sendFail c.2.ws with
        | some e2 => exact List.mem_cons_of_mem _ (ih hc)
        | none => exact ih hc

theorem mapSet_keys {α : Type} (m : List (String × α)) (k : String) (v : α) :
    (mapSet m k v).map Prod.fst
      = if m.any (fun p => p.1 == k) then m.map Prod.fst
        else m.map Prod.fst ++ [k] := by
  unfold mapSet
  split
  · rw [List.map_map]
    apply List.map_congr_left
    intro p _
    by_cases hp : p.1 = k
    · simp [hp]
    · simp [hp]
  · simp

theorem mem_mapSet {α : Type} (m : List (String × α)) (k : String) (v : α)
    (p : String × α) (hp : p ∈ mapSet m k v) : p ∈ m ∨ p = (k, v) := by
  unfold mapSet at hp
  split at hp
  · rcases List.mem_map.mp hp with ⟨q, hq, hpq⟩
    by_cases h : q.1 = k
    · right
      rw [← hpq]
      simp [h]
    · left
      rw [← hpq]
      simpa [h] using hq
  · rcases List.mem_append.mp hp with h | h
    · exact Or.inl h
    · exact Or.inr (List.mem_singleton.mp h)

/-- Invariant of every reachable relay state: the acceptance history is
exactly `client#0 … client#(nextClientId-1)` in order, registry keys are
pairwise distinct, and every registry entry stores its own identity as its
handle and a truthy URL. -/
def GoodState (s : RelayState) : Prop :=
  s.assigned = (List.range s.nextClientId).map mkClientId ∧
  (s.clients.map Prod.fst).Nodup ∧
  ∀ p ∈ s.clients, p.2.ws = p.1 ∧ p.2.url ≠ ""

theorem goodState_initial : GoodState initialState := by
  refine ⟨rfl, List.nodup_nil, ?_⟩
  intro p hp
  cases hp

theorem goodState_step (s : RelayState) (e : Event) (h : GoodState s) :
    GoodState (step s e) := by
  obtain ⟨hassigned, hnodup, hrecs⟩ := h
  cases e with
  | connect url =>
    by_cases hurl : url = ""
    · simpa [step, hurl] using ⟨hassigned, hnodup, hrecs⟩
    · refine ⟨?_, ?_, ?_⟩
      · simp only [step, if_neg hurl]
        rw [hassigned, List.range_succ, List.map_append]
        rfl
      · simp only [step, if_neg hurl]
        rw [mapSet_keys]
        split
        · exact hnodup
        · rw [List.nodup_append]
          refine ⟨hnodup, List.nodup_singleton _, ?_⟩
          intro a ha hmem
          rw [List.mem_singleton.mp hmem] at ha
          rename_i hany
          rcases List.mem_map.mp ha with ⟨q, hq, hqk⟩
          apply hany
          apply List.any_eq_true.mpr
          exact ⟨q, hq, by simp [hqk]⟩
      · simp only [step, if_neg hurl]
        intro p hp
        rcases mem_mapSet _ _ _ p hp with hmem | heq
        · exact hrecs p hmem
        · rw [heq]
          exact ⟨rfl, hurl⟩
  | close clientId =>
    refine ⟨hassigned, ?_, ?_⟩
    · simp only [step, mapDelete]
      exact List.Nodup.sublist (List.Sublist.map Prod.fst (List.filter_sublist _)) hnodup
    · intro p hp
      exact hrecs p (List.mem_of_mem_filter hp)
  | message clientId data binary =>
    exact ⟨hassigned, hnodup, hrecs⟩

theorem goodState_run (t : List Event) : GoodState (run t) := by
  suffices h : ∀ (s : RelayState), GoodState s → GoodState (t.foldl step s) by
    exact h initialState goodState_initial
  induction t with
  | nil => intro s hs; exact hs
  | cons e es ih =>
    intro s hs
    exact ih (step s e) (goodState_step s e hs)

theorem mkObj_keys (l : List (String × Option JValue)) :
    ∃ fs, mkObj l = JValue.obj fs ∧ fs.map Prod.fst ⊆ l.map Prod.fst := by
  refine ⟨_, rfl, ?_⟩
  intro k hk
  rcases List.mem_map.mp hk with ⟨q, hq, hqk⟩
  rcases List.mem_filterMap.mp hq with ⟨r, hr, hrq⟩
  rcases Option.map_eq_some'.mp hrq with ⟨a, _, hra⟩
  rw [← hqk, ← hra]
  exact List.mem_map.mpr ⟨r, hr, rfl⟩

/-! ### Claim theorems -/

/-- C7: over any sequence of events within one process lifetime, the
identities assigned at acceptance are exactly `client#0, client#1, …` in
acceptance order (so every identity has the form `client#N`, the numeric
suffixes strictly increase from 0), and they are pairwise distinct — no
identity is ever reused, in particular not after its connection closes. -/
theorem C7_identity_assignment (t : List Event) :
    (run t).assigned = (List.range (run t).nextClientId).map mkClientId ∧
    (run t).assigned.Nodup := by
  obtain ⟨h1, _, _⟩ := goodState_run t
  refine ⟨h1, ?_⟩
  rw [h1]
  exact List.Nodup.map mkClientId_injective (List.nodup_range _)

/-- C8: after any interleaving of connect, disconnect/error and message
events the registry never holds two entries with the same identity, and the
removal handler is idempotent: running `close` twice for the same identity
equals running it once (total, so it never throws, and the second run
changes nothing). -/
theorem C8_registry_invariant :
    (∀ t : List Event, ((run t).clients.map Prod.fst).Nodup) ∧
    (∀ (s : RelayState) (c : String),
      step (step s (.close c)) (.close c) = step s (.close c)) := by
  constructor
  · intro t
    exact (goodState_run t).2.1
  · intro s c
    cases s
    simp [step, mapDelete, List.filter_filter]

/-- C5: `parseMessage` returns no message exactly when the frame is binary,
the payload is not valid JSON, or the decoded `version` field does not
strictly equal the protocol version constant 2; a frame passing all three
checks is returned unchanged; and a rejected frame is never routed — the
message handler produces no sends, only a logged diagnostic. -/
theorem C5_parse_rejection (data : Option JValue) (binary : Bool) :
    (parseMessage data binary = none ↔
      binary = true ∨ data = none ∨
        ∃ m, data = some m
          ∧ strictEqNum (jGet m "version") PROTOCOL_VERSION = false) ∧
    (∀ m, data = some m → binary = false →
      strictEqNum (jGet m "version") PROTOCOL_VERSION = true →
      parseMessage data binary = some m) ∧
    (∀ (cid : String) (clients : List (String × ClientRec))
        (f : String → Option String),
      parseMessage data binary = none →
      onMessage cid clients f data binary
        = { sends := [], logs := [.notMatchingProtocol] }) := by
  refine ⟨?_, ?_, ?_⟩
  · cases binary with
    | true => simp [parseMessage]
    | false =>
      cases data with
      | none => simp [parseMessage]
      | some m =>
        by_cases hv : strictEqNum (jGet m "version") PROTOCOL_VERSION = true
        · simp [parseMessage, hv]
        · simp [parseMessage, hv]
  · intro m hm hb hv
    subst hm
    subst hb
    simp [parseMessage, hv]
  · intro cid clients f hnone
    simp [onMessage, hnone]

/-- C9: during any broadcast fan-out a send failure to one peer is caught
and logged while every other registered non-broadcaster peer with a working
channel is still sent to; and a host-issued `broadcast` on an empty registry
attempts no delivery, emits exactly one diagnostic, and raises no error
(the operation is total). -/
theorem C9_broadcast_fault_isolation :
    (∀ (clients : List (String × ClientRec)) (f : String → Option String)
        (b : Option String) (m : JValue) (p q : String × ClientRec) (err : String),
      p ∈ clients → b ≠ some p.1 → f p.2.ws = none →
      q ∈ clients → b ≠ some q.1 → f q.2.ws = some err →
      (p.2.ws, mkObj [("version", some (.num PROTOCOL_VERSION)),
          ("method", jGet m "method"), ("params", jGet m "params")])
        ∈ (handleSendBroadcast clients f b m).sends ∧
      LogEntry.broadcastSendFail q.1 err
        ∈ (handleSendBroadcast clients f b m).logs) ∧
    (∀ (f : String → Option String) (method : String) (params : Option JValue),
      serverBroadcast [] f method params
        = { sends := [], logs := [LogEntry.warnNoApps (some (.str method))] }) := by
  constructor
  · intro clients f b m p q err hp hbp hfp hq hbq hfq
    constructor
    · show _ ∈ (handleSendBroadcast clients f b m).sends
      unfold handleSendBroadcast
      simp only []
      rw [broadcastLoop_sends]
      apply List.mem_map.mpr
      refine ⟨p, List.mem_filter.mpr ⟨hp, ?_⟩, rfl⟩
      simp [hfp]
      simpa using hbp
    · show _ ∈ (handleSendBroadcast clients f b m).logs
      unfold handleSendBroadcast
      simp only []
      apply List.mem_append.mpr
      exact Or.inr (broadcastLoop_mem_logs f b _ clients q err hq hbq hfq)
  · intro f method params
    cases params <;> rfl

/-- C2: classification follows the fixed order Broadcast, Request, Response
with the first match winning, so every message whose `method` and `target`
are strings is classified and routed as a Request — even when it also
carries a response-shaped id with a result or error, it is never treated as
a Response. -/
theorem C2_request_precedence (cid : String) (clients : List (String × ClientRec))
    (f : String → Option String) (m : JValue)
    (h : isRequest m = true) :
    classify m = .ok .request ∧
    routeCore cid clients f m =
      (if strictEqStr (jGet m "target") "server" = true
        then handleServerRequest cid clients f m
        else forwardRequest cid clients f m) := by
  have htgt : isStr (jGet m "target") = true := by
    unfold isRequest at h
    exact ((Bool.and_eq_true _ _).mp h).2
  have hnone : (jGet m "target").isNone = false := by
    cases hjt : jGet m "target" with
    | none => rw [hjt] at htgt; simp [isStr] at htgt
    | some v => simp
  have hbc : isBroadcast m = false := by
    unfold isBroadcast
    simp [hnone]
  constructor
  · unfold classify
    simp [hbc, h]
  · unfold routeCore
    simp [hbc, h]

def c2Message : JValue := .obj [("version", .num 2), ("method", .str "m"),
  ("target", .str "client#1"),
  ("id", .obj [("requestId", .str "r1"), ("clientId", .str "client#0")]),
  ("result", .num 1)]

theorem C2_request_precedence_witness :
    isRequest c2Message = true ∧ isResponse c2Message = .ok true ∧
    classify c2Message = .ok .request :=
  ⟨rfl, rfl,
    (C2_request_precedence "client#0" [] (fun _ => none) c2Message rfl).1⟩

/-- C4: whenever routing a parsed, classified message raises a failure, a
message carrying an `id` gets an error response
`{version, error: <stringified condition>, id: originalId}` back on the
originating connection with its `id` unchanged (provided that reply send
works); a message with no `id` only produces a log; and no failure changes
the relay's state — the registry and counter are untouched by any message
event, so no connection is closed and the relay keeps running. -/
theorem C4_error_propagation (cid : String) (clients : List (String × ClientRec))
    (f : String → Option String) (m : JValue) (e : RelayError)
    (herr : routeCore cid clients f m = .error e) :
    (jGet m "id" = none →
      routeMessage cid clients f m
        = { sends := [], logs := [.handlingFailed cid e.toDisplay] }) ∧
    (∀ v, jGet m "id" = some v → f cid = none →
      routeMessage cid clients f m
        = { sends := [(cid, JValue.obj [("version", .num PROTOCOL_VERSION),
            ("error", .str e.toDisplay), ("id", v)])], logs := [] }) ∧
    (∀ (s : RelayState) (c : String) (d : Option JValue) (b : Bool),
      step s (.message c d b) = s) := by
  refine ⟨?_, ?_, fun s c d b => rfl⟩
  · intro hid
    unfold routeMessage
    rw [herr]
    unfold handleCaughtError
    simp [hid]
  · intro v hid hf
    unfold routeMessage
    rw [herr]
    unfold handleCaughtError
    simp [hid, hf, mkObj]

def c4Message : JValue := .obj [("version", .num 2), ("method", .str "m"),
  ("target", .str "client#9"), ("id", .str "r1")]

theorem C4_error_propagation_witness :
    routeMessage "client#0" [] (fun _ => none) c4Message
      = { sends := [("client#0", JValue.obj [("version", .num PROTOCOL_VERSION),
          ("error", .str (RelayError.toDisplay (.thrown
            "could not find id \"client#9\" while forwarding request"))),
          ("id", .str "r1")])], logs := [] } :=
  (C4_error_propagation "client#0" [] (fun _ => none) c4Message
      (.thrown "could not find id \"client#9\" while forwarding request")
      rfl).2.1 (.str "r1") rfl rfl

/-- C3: a Broadcast-classified message from connection `A` (with every send
succeeding and every registry entry holding its own handle) is delivered to
exactly the registered connections other than `A`, never to `A`, and every
delivered copy is an object whose fields are drawn only from
`{version, method, params}` — the broadcaster's identity and every other
field of the original message are absent. -/
theorem C3_broadcast_delivery (A : String) (clients : List (String × ClientRec))
    (f : String → Option String) (m : JValue)
    (hb : isBroadcast m = true)
    (hws : ∀ p ∈ clients, p.2.ws = p.1)
    (hf : ∀ x, f x = none) :
    (routeMessage A clients f m).sends
      = (clients.filter (fun p => p.1 != A)).map
          (fun p => (p.1, mkObj [("version", some (.num PROTOCOL_VERSION)),
            ("method", jGet m "method"), ("params", jGet m "params")])) ∧
    (∀ pl, (A, pl) ∉ (routeMessage A clients f m).sends) ∧
    (∀ p ∈ (routeMessage A clients f m).sends,
      ∃ fs, p.2 = JValue.obj fs
        ∧ fs.map Prod.fst ⊆ ["version", "method", "params"]) := by
  have hroute : routeMessage A clients f m
      = handleSendBroadcast clients f (some A) m := by
    unfold routeMessage routeCore
    rw [hb]
    rfl
  have hsends : (routeMessage A clients f m).sends
      = (clients.filter (fun p => p.1 != A)).map
          (fun p => (p.1, mkObj [("version", some (.num PROTOCOL_VERSION)),
            ("method", jGet m "method"), ("params", jGet m "params")])) := by
    rw [hroute]
    unfold handleSendBroadcast
    simp only []
    rw [broadcastLoop_sends]
    rw [List.filter_congr (l := clients)
      (q := fun p => p.1 != A) ?_]
    · apply List.map_congr_left
      intro p hp
      rw [hws p (List.mem_of_mem_filter hp)]
    · intro p _
      rw [hf p.2.ws]
      by_cases hpA : p.1 = A
      · simp [hpA]
      · simp [bne, hpA, Ne.symm hpA]
  refine ⟨hsends, ?_, ?_⟩
  · intro pl hmem
    rw [hsends] at hmem
    rcases List.mem_map.mp hmem with ⟨q, hq, hqe⟩
    have h1 : q.1 = A := congrArg Prod.fst hqe
    have h2 := (List.mem_filter.mp hq).2
    rw [h1] at h2
    simp at h2
  · intro p hmem
    rw [hsends] at hmem
    rcases List.mem_map.mp hmem with ⟨q, _, hqe⟩
    rcases mkObj_keys [("version", some (.num PROTOCOL_VERSION)),
      ("method", jGet m "method"), ("params", jGet m "params")] with ⟨fs, hfs, hsub⟩
    refine ⟨fs, ?_, ?_⟩
    · rw [← hqe]
      exact hfs
    · simpa using hsub

def c3Clients : List (String × ClientRec) :=
  [("client#0", ⟨"client#0", "/"⟩), ("client#1", ⟨"client#1", "/"⟩),
   ("client#2", ⟨"client#2", "/"⟩)]

def c3Message : JValue := .obj [("version", .num 2), ("method", .str "ping"),
  ("params", .obj [])]

theorem C3_broadcast_delivery_witness :
    (routeMessage "client#0" c3Clients (fun _ => none) c3Message).sends
      = (c3Clients.filter (fun p => p.1 != "client#0")).map
          (fun p => (p.1, mkObj [("version", some (.num PROTOCOL_VERSION)),
            ("method", jGet c3Message "method"),
            ("params", jGet c3Message "params")])) :=
  (C3_broadcast_delivery "client#0" c3Clients (fun _ => none) c3Message
    rfl (by decide) (fun _ => rfl)).1

/-- C6: in any reachable state, a `getpeers` request addressed to the server
by connection `A` is answered (when the reply send works) with a single
reply to `A` whose result maps exactly the other registered identities —
`A`'s own entry excluded — to the parsed query parameters of their original
upgrade-request URLs. -/
theorem C6_getpeers (t : List Event) (A : String) (f : String → Option String)
    (m : JValue)
    (hmethod : jGet m "method" = some (.str "getpeers"))
    (htarget : jGet m "target" = some (.str "server"))
    (hf : f A = none) :
    routeMessage A (run t).clients f m
      = { sends := [(A, mkObj [("version", some (.num PROTOCOL_VERSION)),
          ("result", some (.obj (((run t).clients.filter (fun p => p.1 != A)).map
            (fun p => (p.1, urlQuery p.2.url))))),
          ("id", jGet m "id")])],
          logs := [] } := by
  have hurls := (goodState_run t).2.2
  have hbc : isBroadcast m = false := by
    unfold isBroadcast
    simp [htarget]
  have hreq : isRequest m = true := by
    unfold isRequest
    simp [hmethod, htarget, isStr]
  have hsrv : strictEqStr (jGet m "target") "server" = true := by
    rw [htarget]
    simp [strictEqStr]
  have h1 : strictEqStr (jGet m "method") "getid" = false := by
    rw [hmethod]
    decide
  have h2 : strictEqStr (jGet m "method") "getpeers" = true := by
    rw [hmethod]
    decide
  have hfilter : (run t).clients.filter (fun p => A != p.1 && p.2.url != "")
      = (run t).clients.filter (fun p => p.1 != A) := by
    apply List.filter_congr
    intro p hp
    have hurl : p.2.url ≠ "" := (hurls p hp).2
    by_cases hpA : p.1 = A
    · simp [bne, hpA]
    · have e1 : (A == p.1) = false := by simpa using Ne.symm hpA
      have e2 : (p.2.url == "") = false := by simpa using hurl
      have e3 : (p.1 == A) = false := by simpa using hpA
      simp [bne, e1, e2, e3]
  unfold routeMessage routeCore
  rw [hbc, hreq, hsrv]
  simp only [Bool.false_eq_true, if_false, if_true]
  unfold handleServerRequest
  rw [h1, h2]
  simp only [Bool.false_eq_true, if_false, if_true, hfilter, hf]

def c6Trace : List Event :=
  [.connect "/?a=1&b=2", .connect "/x?c=3", .connect "/"]

def c6Message : JValue := .obj [("version", .num 2),
  ("method", .str "getpeers"), ("target", .str "server"), ("id", .str "q1")]

theorem C6_getpeers_witness :
    routeMessage "client#0" (run c6Trace).clients (fun _ => none) c6Message
      = { sends := [("client#0", mkObj [("version", some (.num PROTOCOL_VERSION)),
          ("result", some (.obj (((run c6Trace).clients.filter
            (fun p => p.1 != "client#0")).map
              (fun p => (p.1, urlQuery p.2.url))))),
          ("id", jGet c6Message "id")])],
          logs := [] } :=
  C6_getpeers c6Trace "client#0" (fun _ => none) c6Message rfl rfl rfl

/-- C1: round-trip correlation.  A request from `A` carrying scalar id `v`
and naming registered target `B` is delivered to `B` with the composite id
`{requestId: v, clientId: A}`; a response from `B` carrying that composite
id (with a result and/or error) is delivered to `A` with the response's
result/error fields and with id exactly the original `v`. -/
theorem C1_round_trip (A B : String) (clients : List (String × ClientRec))
    (f : String → Option String) (recA recB : ClientRec)
    (m m2 : JValue) (v r : JValue)
    (hmethod : isStr (jGet m "method") = true)
    (htarget : jGet m "target" = some (.str B))
    (hBserver : B ≠ "server")
    (hid : jGet m "id" = some v)
    (hB : mapGet clients B = some recB) (hBws : recB.ws = B)
    (hfB : f B = none)
    (hm2id : jGet m2 "id" = some (.obj [("requestId", v), ("clientId", .str A)]))
    (hm2method : isStr (jGet m2 "method") = false)
    (hm2result : jGet m2 "result" = some r)
    (hA : mapGet clients A = some recA) (hAws : recA.ws = A)
    (hfA : f A = none) :
    routeMessage A clients f m
      = { sends := [(B, mkObj [("version", some (.num PROTOCOL_VERSION)),
          ("method", jGet m "method"), ("params", jGet m "params"),
          ("id", some (.obj [("requestId", v), ("clientId", .str A)]))])],
          logs := [] } ∧
    routeMessage B clients f m2
      = { sends := [(A, mkObj [("version", some (.num PROTOCOL_VERSION)),
          ("result", some r), ("error", jGet m2 "error"),
          ("id", some v)])],
          logs := [] } := by
  constructor
  · have hbc : isBroadcast m = false := by
      unfold isBroadcast
      simp [htarget]
    have hreq : isRequest m = true := by
      unfold isRequest
      rw [hmethod, htarget]
      rfl
    have hsrv : strictEqStr (jGet m "target") "server" = false := by
      rw [htarget]
      simp [strictEqStr, hBserver]
    unfold routeMessage routeCore
    rw [hbc, hreq, hsrv]
    simp only [Bool.false_eq_true, if_false, if_true]
    unfold forwardRequest getClientWs
    simp only [htarget, hB, hid, hBws, hfB]
  · have hbc2 : isBroadcast m2 = false := by
      unfold isBroadcast
      simp [hm2method]
    have hreq2 : isRequest m2 = false := by
      unfold isRequest
      simp [hm2method]
    have hresp : isResponse m2 = .ok true := by
      unfold isResponse
      rw [hm2id]
      simp [isStr, hm2result]
    unfold routeMessage routeCore
    rw [hbc2, hreq2, hresp]
    simp only [Bool.false_eq_true, if_false]
    unfold forwardResponse
    rw [hm2id]
    simp only [hm2result]
    unfold getClientWs
    simp [jsFalsy, jGet, hA, hAws, hfA]

theorem C5_parse_rejection_witness :
    parseMessage (some (JValue.obj [("version", .num 2), ("method", .str "m")])) false
      = some (JValue.obj [("version", .num 2), ("method", .str "m")]) ∧
    parseMessage (some (JValue.obj [("version", .num 1)])) false = none :=
  ⟨(C5_parse_rejection (some (JValue.obj [("version", .num 2), ("method", .str "m")]))
      false).2.1 _ rfl rfl rfl,
   (C5_parse_rejection (some (JValue.obj [("version", .num 1)])) false).1.mpr
      (Or.inr (Or.inr ⟨JValue.obj [("version", .num 1)], rfl, rfl⟩))⟩

def c9Clients : List (String × ClientRec) :=
  [("client#0", ⟨"client#0", "/"⟩), ("client#1", ⟨"client#1", "/"⟩),
   ("client#2", ⟨"client#2", "/"⟩)]

def c9Fail : String → Option String :=
  fun x => if x = "client#1" then some "Error: send failed" else none

def c9Message : JValue := .obj [("version", .num 2), ("method", .str "ping")]

theorem C9_broadcast_fault_isolation_witness :
    ("client#2", mkObj [("version", some (.num PROTOCOL_VERSION)),
        ("method", jGet c9Message "method"), ("params", jGet c9Message "params")])
      ∈ (handleSendBroadcast c9Clients c9Fail (some "client#0") c9Message).sends ∧
    LogEntry.broadcastSendFail "client#1" "Error: send failed"
      ∈ (handleSendBroadcast c9Clients c9Fail (some "client#0") c9Message).logs :=
  C9_broadcast_fault_isolation.1 c9Clients c9Fail (some "client#0") c9Message
    ("client#2", ⟨"client#2", "/"⟩) ("client#1", ⟨"client#1", "/"⟩)
    "Error: send failed" (by decide) (by decide) rfl (by decide) (by decide) rfl

def c1Clients : List (String × ClientRec) :=
  [("client#0", ⟨"client#0", "/"⟩), ("client#1", ⟨"client#1", "/"⟩)]

def c1Request : JValue := .obj [("version", .num 2), ("method", .str "m"),
  ("target", .str "client#1"), ("id", .str "r1")]

def c1Response : JValue := .obj [("version", .num 2), ("result", .num 42),
  ("id", .obj [("requestId", .str "r1"), ("clientId", .str "client#0")])]

theorem C1_round_trip_witness :
    routeMessage "client#0" c1Clients (fun _ => none) c1Request
      = { sends := [("client#1", mkObj [("version", some (.num PROTOCOL_VERSION)),
          ("method", jGet c1Request "method"), ("params", jGet c1Request "params"),
          ("id", some (.obj [("requestId", .str "r1"),
            ("clientId", .str "client#0")]))])],
          logs := [] } ∧
    routeMessage "client#1" c1Clients (fun _ => none) c1Response
      = { sends := [("client#0", mkObj [("version", some (.num PROTOCOL_VERSION)),
          ("result", some (.num 42)), ("error", jGet c1Response "error"),
          ("id", some (.str "r1"))])],
          logs := [] } :=
  C1_round_trip "client#0" "client#1" c1Clients (fun _ => none)
    ⟨"client#0", "/"⟩ ⟨"client#1", "/"⟩ c1Request c1Response
    (.str "r1") (.num 42) rfl rfl (by decide) rfl rfl rfl rfl rfl rfl rfl rfl rfl rfl

/-- C10: a peer-targeted request carrying no `id` is forwarded to its target
with the `id` field entirely absent (`undefined`, dropped by the JSON
serialization) — no composite identifier is built — and a message whose `id`
is absent is never classified as a Response, so no response can be
correlated back to such a request. -/
theorem C10_idless_forward (A B : String) (clients : List (String × ClientRec))
    (f : String → Option String) (recB : ClientRec) (m : JValue)
    (hmethod : isStr (jGet m "method") = true)
    (htarget : jGet m "target" = some (.str B))
    (hBserver : B ≠ "server")
    (hid : jGet m "id" = none)
    (hB : mapGet clients B = some recB) (hBws : recB.ws = B)
    (hfB : f B = none) :
    routeMessage A clients f m
      = { sends := [(B, mkObj [("version", some (.num PROTOCOL_VERSION)),
          ("method", jGet m "method"), ("params", jGet m "params"),
          ("id", none)])],
          logs := [] } ∧
    (∀ fs, mkObj [("version", some (.num PROTOCOL_VERSION)),
        ("method", jGet m "method"), ("params", jGet m "params"), ("id", none)]
        = JValue.obj fs → "id" ∉ fs.map Prod.fst) ∧
    (∀ m2, jGet m2 "id" = none → isResponse m2 = .ok false) := by
  refine ⟨?_, ?_, ?_⟩
  · have hbc : isBroadcast m = false := by
      unfold isBroadcast
      simp [htarget]
    have hreq : isRequest m = true := by
      unfold isRequest
      rw [hmethod, htarget]
      rfl
    have hsrv : strictEqStr (jGet m "target") "server" = false := by
      rw [htarget]
      simp [strictEqStr, hBserver]
    unfold routeMessage routeCore
    rw [hbc, hreq, hsrv]
    simp only [Bool.false_eq_true, if_false, if_true]
    unfold forwardRequest getClientWs
    simp only [htarget, hB, hid, hBws, hfB]
  · intro fs hfs hkey
    unfold mkObj at hfs
    injection hfs with hfs2
    rcases List.mem_map.mp hkey with ⟨q, hq, hqk⟩
    rw [← hfs2] at hq
    rcases List.mem_filterMap.mp hq with ⟨r, hr, hrq⟩
    rcases Option.map_eq_some'.mp hrq with ⟨a, hra, hraq⟩
    simp only [List.mem_cons, List.not_mem_nil, or_false] at hr
    rcases hr with h | h | h | h
    · rw [h] at hraq
      rw [← hraq] at hqk
      simp at hqk
    · rw [h] at hraq
      rw [← hraq] at hqk
      simp at hqk
    · rw [h] at hraq
      rw [← hraq] at hqk
      simp at hqk
    · rw [h] at hra
      simp at hra
  · intro m2 h2
    unfold isResponse
    rw [h2]

def c10Request : JValue := .obj [("version", .num 2), ("method", .str "m"),
  ("target", .str "client#1")]

theorem C10_idless_forward_witness :
    routeMessage "client#0" c1Clients (fun _ => none) c10Request
      = { sends := [("client#1", mkObj [("version", some (.num PROTOCOL_VERSION)),
          ("method", jGet c10Request "method"), ("params", jGet c10Request "params"),
          ("id", none)])],
          logs := [] } :=
  (C10_idless_forward "client#0" "client#1" c1Clients (fun _ => none)
    ⟨"client#1", "/"⟩ c10Request rfl rfl (by decide) rfl rfl rfl rfl).1
